import Mathlib

/-!
Shallow embedding of the share lifecycle, access-control resolution, audit
and compression logic of the nua-backend repository.

Conventions of the embedding:

- Mongo ObjectIds (users, files, shares) are modelled as `Nat`.
- Instants (`Date`) are modelled as `Nat` milliseconds; `now` is passed
  explicitly where the source calls `new Date()`.
- A Mongo collection is a `List`; `findOne` is `List.find?` on the query
  predicate, `save` of a found document is a map-by-id replacement, and
  `create` appends a record carrying a fresh id drawn from `nextShareId`.
- Request-level concerns the claims do not touch (express validation, the
  authentication middleware, HTTP serialization) are outside the embedding:
  each controller takes the already-authenticated principal id.
- Strings that the source parses into dates are modelled by the parse
  result: `Option Nat`, where `none` stands for an absent, empty or
  unparseable expiration string.
-/

namespace NuaBackend

/-- Permission level of a Share (`permission` enum in the Share schema). -/
inductive Permission
  | view
  | download
  deriving DecidableEq, Repr

/-- Kind of a Share (`shareType` enum in the Share schema). -/
inductive ShareType
  | user
  | link
  deriving DecidableEq, Repr

/-- Audit action tags, from the `AuditAction` union in `src/types` as used
by `getActionDisplayName` in `auditService.ts`. -/
inductive AuditAction
  | file_upload
  | file_download
  | file_delete
  | file_share_user
  | file_share_link
  | share_revoke
  | share_access
  | file_view
  deriving DecidableEq, Repr

/-- A File record (`File` model): only the fields the access-control and
download logic reads are embedded (identity, owning principal, disk path). -/
structure File where
  id : Nat
  owner : Nat
  path : String
  deriving DecidableEq, Repr

/-- A Share record (`Share` model in the share schema). `sharedWith` is
present iff `shareType = user`; `shareLink` present iff `shareType = link`;
`expiresAt = none` is the schema default `null` (never expires). -/
structure Share where
  id : Nat
  file : Nat
  owner : Nat
  shareType : ShareType
  sharedWith : Option Nat
  shareLink : Option String
  permission : Permission
  expiresAt : Option Nat
  isActive : Bool
  deriving DecidableEq, Repr

/-- One AuditLog entry, as written by `logAudit` in `auditService.ts`
(the free-form `details`, ip and agent fields are not read by any claim and
are omitted). -/
structure AuditEntry where
  user : Nat
  action : AuditAction
  file : Option Nat
  share : Option Nat
  deriving DecidableEq, Repr

/-- The backing state: the File and Share collections, the append-only
audit collection, a fresh-id counter for created Shares, and the set of
paths present on disk (for the `fs.existsSync` check in `downloadFile`). -/
structure DB where
  files : List File
  shares : List Share
  audits : List AuditEntry
  nextShareId : Nat
  disk : List String
  deriving DecidableEq, Repr

/-- `logAudit` from `auditService.ts`: appends one AuditLog entry.  The
source swallows any store error so the caller always continues; the
embedded store append always succeeds, matching the caller-visible
behaviour. -/
def logAudit (db : DB) (userId : Nat) (action : AuditAction)
    (fileId shareId : Option Nat) : DB :=
  { db with audits := db.audits ++ [⟨userId, action, fileId, shareId⟩] }

/-- `isExpired` helper from the utils: `null`/`undefined` date is never
expired, otherwise expired iff `new Date() > date`. -/
def isExpired (now : Nat) (date : Option Nat) : Bool :=
  match date with
  | none => false
  | some d => decide (now > d)

/-- `parseExpiration` helper from the utils, applied to the already-parsed
date: an absent/empty/unparseable string is `none`; a parsed date is
discarded (`null`) unless strictly in the future (`date <= new Date()`
returns `null`). -/
def parseExpiration (now : Nat) (expiration : Option Nat) : Option Nat :=
  match expiration with
  | none => none
  | some d => if d ≤ now then none else some d

/-- The Share schema `isExpired` virtual: false when no expiration,
otherwise `new Date() > expiresAt`. -/
def shareIsExpired (now : Nat) (s : Share) : Bool :=
  match s.expiresAt with
  | none => false
  | some d => decide (now > d)

/-- The Share schema `isValid` virtual: inactive is invalid; expired per
`new Date() > expiresAt` is invalid; otherwise valid. -/
def shareIsValid (now : Nat) (s : Share) : Bool :=
  if !s.isActive then false
  else
    match s.expiresAt with
    | none => true
    | some d => !(decide (now > d))

/-- The expiry clause the Mongo queries use:
`$or: [expiresAt null, expiresAt $gt now]` — the record is kept iff it has
no expiration or its expiration is strictly greater than now. -/
def unexpiredInQuery (now : Nat) (e : Option Nat) : Bool :=
  match e with
  | none => true
  | some d => decide (d > now)

/-- The query key of the existing-share lookup of `shareWithUser`:
`file, sharedWith, shareType: user` (no activity or expiry filter). -/
def userSharePred (fileId targetId : Nat) (s : Share) : Bool :=
  s.file == fileId && s.sharedWith == some targetId
    && s.shareType == ShareType.user

/-- The valid-user-share query used by `getFileById` and by the model
`findValidShareForUser` static: the user-share key plus `isActive: true`
and the `$or` expiry clause. -/
def validUserSharePred (now fileId userId : Nat) (s : Share) : Bool :=
  userSharePred fileId userId s && s.isActive
    && unexpiredInQuery now s.expiresAt

/-- The query of the non-owner branch of `downloadFile`: the valid-user-share
query further restricted to `permission: download`. -/
def downloadUserSharePred (now fileId userId : Nat) (s : Share) : Bool :=
  userSharePred fileId userId s && s.permission == Permission.download
    && s.isActive && unexpiredInQuery now s.expiresAt

/-- The query of `accessViaLink`: `shareLink, shareType: link,
isActive: true` (expiry checked afterwards via `isExpired`). -/
def activeLinkPred (tok : String) (s : Share) : Bool :=
  s.shareLink == some tok && s.shareType == ShareType.link && s.isActive

/-- The query of `downloadViaLink`: the active-link query further
restricted to `permission: download`. -/
def downloadLinkPred (tok : String) (s : Share) : Bool :=
  activeLinkPred tok s && s.permission == Permission.download

/-- `findValidShareForUser` static of the Share model. -/
def findValidShareForUser (db : DB) (now fileId userId : Nat) :
    Option Share :=
  db.shares.find? (validUserSharePred now fileId userId)

/-- Mongoose `document.save()` of a found-and-mutated document: the store
replaces the record carrying the id of the document. -/
def replaceShareById (l : List Share) (i : Nat) (b : Share) : List Share :=
  l.map (fun s => if s.id == i then b else s)

/-- Caller-visible outcomes of `shareWithUser` (the generic 500 catch-all
and pre-auth failures are outside the embedding). -/
inductive ShareWithUserResult
  | fileNotFound
  | notOwner
  | selfShare
  | updated (s : Share)
  | created (s : Share)
  deriving DecidableEq, Repr

/-- The read phase of `shareWithUser`: the `Share.findOne` on
`(file, sharedWith, shareType: user)`. -/
def shareWithUserRead (fileId targetId : Nat) (db : DB) : Option Share :=
  db.shares.find? (userSharePred fileId targetId)

/-- The write phase of `shareWithUser`, acting on the result of the read
phase.  Found: update in place — `permission = permission ||
existingShare.permission`, `expiresAt = parseExpiration(expiresAt) ||
existingShare.expiresAt`, `isActive = true`, save, respond, and return
without logging.  Not found: create with `permission || view` and
`parseExpiration(expiresAt)`, then log a `file_share_user` audit entry. -/
def shareWithUserWrite (now userId fileId targetId : Nat)
    (permission : Option Permission) (expiresAt : Option Nat)
    (found : Option Share) (db : DB) : ShareWithUserResult × DB :=
  match found with
  | some existingShare =>
    let updated : Share :=
      { existingShare with
        permission := permission.getD existingShare.permission,
        expiresAt :=
          match parseExpiration now expiresAt with
          | some d => some d
          | none => existingShare.expiresAt,
        isActive := true }
    (ShareWithUserResult.updated updated,
      { db with
        shares := replaceShareById db.shares existingShare.id updated })
  | none =>
    let share : Share :=
      { id := db.nextShareId, file := fileId, owner := userId,
        shareType := ShareType.user, sharedWith := some targetId,
        shareLink := none,
        permission := permission.getD Permission.view,
        expiresAt := parseExpiration now expiresAt,
        isActive := true }
    let db1 :=
      { db with shares := db.shares ++ [share],
                nextShareId := db.nextShareId + 1 }
    (ShareWithUserResult.created share,
      logAudit db1 userId AuditAction.file_share_user (some fileId)
        (some share.id))

/-- `shareWithUser` controller: file lookup, owner check, self-share
check, then the findOne read followed by the upsert write.  The
composition of `shareWithUserRead` and `shareWithUserWrite` mirrors the
sequential source pattern of `findOne` followed by `save`/`create`. -/
def shareWithUser (now userId fileId targetId : Nat)
    (permission : Option Permission) (expiresAt : Option Nat)
    (db : DB) : ShareWithUserResult × DB :=
  match db.files.find? (fun f => f.id == fileId) with
  | none => (ShareWithUserResult.fileNotFound, db)
  | some file =>
    if file.owner != userId then (ShareWithUserResult.notOwner, db)
    else if targetId == userId then (ShareWithUserResult.selfShare, db)
    else
      shareWithUserWrite now userId fileId targetId permission expiresAt
        (shareWithUserRead fileId targetId db) db

/-- Caller-visible outcomes of `shareViaLink`.  `serverError` is the 500
path of the catch block, reached when `Share.create` throws — in
particular on a duplicate-key violation of the unique sparse index on
`shareLink`. -/
inductive ShareViaLinkResult
  | fileNotFound
  | notOwner
  | created (s : Share)
  | serverError
  deriving DecidableEq, Repr

/-- `shareViaLink` controller.  `tok` is the value returned by
`generateShareLink()` (a uuid4 with dashes stripped; the randomness itself
is not embeddable, so the issued token is a parameter).  The store
unique sparse index on `shareLink` makes `Share.create` throw when the
token already exists; the controller has no retry, the catch block turns
the throw into the 500 response. -/
def shareViaLink (now userId fileId : Nat)
    (permission : Option Permission) (expiresAt : Option Nat)
    (tok : String) (db : DB) : ShareViaLinkResult × DB :=
  match db.files.find? (fun f => f.id == fileId) with
  | none => (ShareViaLinkResult.fileNotFound, db)
  | some file =>
    if file.owner != userId then (ShareViaLinkResult.notOwner, db)
    else if db.shares.any (fun s => s.shareLink == some tok) then
      (ShareViaLinkResult.serverError, db)
    else
      let share : Share :=
        { id := db.nextShareId, file := fileId, owner := userId,
          shareType := ShareType.link, sharedWith := none,
          shareLink := some tok,
          permission := permission.getD Permission.view,
          expiresAt := parseExpiration now expiresAt,
          isActive := true }
      let db1 :=
        { db with shares := db.shares ++ [share],
                  nextShareId := db.nextShareId + 1 }
      (ShareViaLinkResult.created share,
        logAudit db1 userId AuditAction.file_share_link (some fileId)
          (some share.id))

/-- Caller-visible outcomes of `accessViaLink` (404 not-found-or-revoked,
403 expired, success). -/
inductive AccessViaLinkResult
  | notFound
  | expired
  | granted (s : Share)
  deriving DecidableEq, Repr

/-- `accessViaLink` controller: findOne on the active-link query, then
the `isExpired` helper check, then a `share_access` audit entry and the
share/permission payload. -/
def accessViaLink (now userId : Nat) (tok : String) (db : DB) :
    AccessViaLinkResult × DB :=
  match db.shares.find? (activeLinkPred tok) with
  | none => (AccessViaLinkResult.notFound, db)
  | some share =>
    if isExpired now share.expiresAt then (AccessViaLinkResult.expired, db)
    else
      (AccessViaLinkResult.granted share,
        logAudit db userId AuditAction.share_access (some share.file)
          (some share.id))

/-- Caller-visible outcomes of `downloadViaLink` (403 when no active
download-permission share carries the token, 403 expired, success). -/
inductive DownloadViaLinkResult
  | forbidden
  | expired
  | download (s : Share)
  deriving DecidableEq, Repr

/-- `downloadViaLink` controller: findOne on the download-link query
(which includes `permission: download`), then the `isExpired` check, then
a `file_download` audit entry and the file download. -/
def downloadViaLink (now userId : Nat) (tok : String) (db : DB) :
    DownloadViaLinkResult × DB :=
  match db.shares.find? (downloadLinkPred tok) with
  | none => (DownloadViaLinkResult.forbidden, db)
  | some share =>
    if isExpired now share.expiresAt then
      (DownloadViaLinkResult.expired, db)
    else
      (DownloadViaLinkResult.download share,
        logAudit db userId AuditAction.file_download (some share.file)
          (some share.id))

/-- Caller-visible outcomes of `getFileById`. -/
inductive GetFileResult
  | notFound
  | accessDenied
  | ok (f : File)
  deriving DecidableEq, Repr

/-- `getFileById` controller: owner bypasses the share lookup entirely;
a non-owner needs a share matching the valid-user-share query; success
logs a `file_view` audit entry. -/
def getFileById (now userId fileId : Nat) (db : DB) : GetFileResult × DB :=
  match db.files.find? (fun f => f.id == fileId) with
  | none => (GetFileResult.notFound, db)
  | some file =>
    if file.owner == userId then
      (GetFileResult.ok file,
        logAudit db userId AuditAction.file_view (some fileId) none)
    else
      match db.shares.find? (validUserSharePred now fileId userId) with
      | none => (GetFileResult.accessDenied, db)
      | some _ =>
        (GetFileResult.ok file,
          logAudit db userId AuditAction.file_view (some fileId) none)

/-- Caller-visible outcomes of `downloadFile`; `missingOnDisk` is the 404
taken when `fs.existsSync(file.path)` fails after access was granted. -/
inductive DownloadFileResult
  | notFound
  | accessDenied
  | missingOnDisk
  | download (f : File)
  deriving DecidableEq, Repr

/-- `downloadFile` controller: owner bypasses the share lookup entirely;
a non-owner needs a share matching the download-user-share query (which
includes `permission: download`); then the disk-existence check; success
logs a `file_download` audit entry. -/
def downloadFile (now userId fileId : Nat) (db : DB) :
    DownloadFileResult × DB :=
  match db.files.find? (fun f => f.id == fileId) with
  | none => (DownloadFileResult.notFound, db)
  | some file =>
    if file.owner == userId
        || (db.shares.find? (downloadUserSharePred now fileId userId)).isSome
    then
      if db.disk.contains file.path then
        (DownloadFileResult.download file,
          logAudit db userId AuditAction.file_download (some fileId) none)
      else (DownloadFileResult.missingOnDisk, db)
    else (DownloadFileResult.accessDenied, db)

/-- Caller-visible outcomes of `updateShareExpiration`. -/
inductive UpdateExpirationResult
  | notFound
  | notOwner
  | ok (s : Share)
  deriving DecidableEq, Repr

/-- `updateShareExpiration` controller: share lookup, owner check, then
`share.expiresAt = parseExpiration(expiresAt) || undefined` and save.  The
active flag and every other field are untouched; no audit entry is written
on this path in the source. -/
def updateShareExpiration (now userId shareId : Nat)
    (expiresAt : Option Nat) (db : DB) : UpdateExpirationResult × DB :=
  match db.shares.find? (fun s => s.id == shareId) with
  | none => (UpdateExpirationResult.notFound, db)
  | some share =>
    if share.owner != userId then (UpdateExpirationResult.notOwner, db)
    else
      let updated : Share :=
        { share with expiresAt := parseExpiration now expiresAt }
      (UpdateExpirationResult.ok updated,
        { db with shares := replaceShareById db.shares share.id updated })

/-! The compression service (`compressImage`, `createZipArchive`,
`compressFile`).  File contents and the sharp/archiver transforms are not
embeddable, so a transform is represented by its observable outcome: the
byte size of the produced file (`some size`), or `none` when the transform
throws (the catch / error-event paths).  Sizes are byte counts (`Nat`);
the reported `compressionRatio` field of the source (a JS number) is
embedded as the exact rational `compressedSize / originalSize`, named
`sizeQuotient` here because of lexical constraints on field names. -/

/-- The `CompressionResult` of the source (the optional `newPath` is the kept
file, embedded separately as `KeptFile`). -/
structure CompressionResult where
  success : Bool
  originalSize : Nat
  compressedSize : Nat
  sizeQuotient : Rat
  deriving DecidableEq, Repr

/-- Which file is left as the file of record after a compression
attempt. -/
inductive KeptFile
  | original
  | transformed
  deriving DecidableEq, Repr

/-- The result every unsuccessful path of the source returns:
`success: false, compressedSize: originalSize, compressionRatio: 1`,
original kept. -/
def failResult (originalSize : Nat) : CompressionResult :=
  { success := false, originalSize := originalSize,
    compressedSize := originalSize, sizeQuotient := 1 }

/-- The image formats `compressImage` has a transform for; any other
mime type hits the unsupported-format early return. -/
def isCompressibleImageType (mimeType : String) : Bool :=
  mimeType == "image/jpeg" || mimeType == "image/jpg"
    || mimeType == "image/png" || mimeType == "image/webp"

/-- `compressImage`: skip files under 100 KiB outright; unsupported
formats and thrown transforms keep the original and report failure; a
produced file replaces the original only when strictly smaller
(`compressedSize < originalSize`), else it is deleted and the original
kept. -/
def compressImage (originalSize : Nat) (mimeType : String)
    (transformOutput : Option Nat) : CompressionResult × KeptFile :=
  if originalSize < 100 * 1024 then (failResult originalSize, .original)
  else if isCompressibleImageType mimeType then
    match transformOutput with
    | none => (failResult originalSize, .original)
    | some compressedSize =>
      if compressedSize < originalSize then
        ({ success := true, originalSize := originalSize,
           compressedSize := compressedSize,
           sizeQuotient := (compressedSize : Rat) / (originalSize : Rat) },
         .transformed)
      else (failResult originalSize, .original)
  else (failResult originalSize, .original)

/-- `createZipArchive`: the produced archive replaces the original only
when `compressedSize < originalSize * 0.9`; the comparison is embedded
exactly as `compressedSize * 10 < originalSize * 9`, which agrees with the
double-precision product for any realistic byte count; an
archiver error keeps the original and reports failure. -/
def createZipArchive (originalSize : Nat) (archiveOutput : Option Nat) :
    CompressionResult × KeptFile :=
  match archiveOutput with
  | none => (failResult originalSize, .original)
  | some compressedSize =>
    if compressedSize * 10 < originalSize * 9 then
      ({ success := true, originalSize := originalSize,
         compressedSize := compressedSize,
         sizeQuotient := (compressedSize : Rat) / (originalSize : Rat) },
       .transformed)
    else (failResult originalSize, .original)

/-- `compressFile`, the pipeline entry point: image mime types go through
`compressImage`; every other type passes through untouched with a failure
report. -/
def compressFile (originalSize : Nat) (mimeType : String)
    (transformOutput : Option Nat) : CompressionResult × KeptFile :=
  if mimeType.startsWith "image/" then
    compressImage originalSize mimeType transformOutput
  else (failResult originalSize, .original)

/-! Concrete records and states used by witnesses and counterexamples. -/

/-- A file owned by principal 10, present on disk. -/
def fOwned : File := { id := 1, owner := 10, path := "p" }

/-- A state holding only `fOwned` and no shares. -/
def dbNoShares : DB :=
  { files := [fOwned], shares := [], audits := [], nextShareId := 0,
    disk := ["p"] }

/-- A user-kind view share on `fOwned` for principal 20, expiring at
instant 5. -/
def boundaryShare : Share :=
  { id := 0, file := 1, owner := 10, shareType := ShareType.user,
    sharedWith := some 20, shareLink := none, permission := Permission.view,
    expiresAt := some 5, isActive := true }

/-- A state holding `fOwned` and `boundaryShare`. -/
def dbBoundary : DB :=
  { files := [fOwned], shares := [boundaryShare], audits := [],
    nextShareId := 1, disk := ["p"] }

/-- A user-kind view share on `fOwned` for principal 20, no expiration. -/
def userViewShare : Share :=
  { id := 0, file := 1, owner := 10, shareType := ShareType.user,
    sharedWith := some 20, shareLink := none, permission := Permission.view,
    expiresAt := none, isActive := true }

/-- A state holding `fOwned` and `userViewShare`. -/
def dbUserView : DB :=
  { files := [fOwned], shares := [userViewShare], audits := [],
    nextShareId := 1, disk := ["p"] }

/-- A link-kind view share on `fOwned` carrying token "tok". -/
def linkViewShare : Share :=
  { id := 0, file := 1, owner := 10, shareType := ShareType.link,
    sharedWith := none, shareLink := some "tok",
    permission := Permission.view, expiresAt := none, isActive := true }

/-- A state holding `fOwned` and `linkViewShare`. -/
def dbLinkView : DB :=
  { files := [fOwned], shares := [linkViewShare], audits := [],
    nextShareId := 1, disk := ["p"] }

/-- A user-kind download share on `fOwned` for principal 20, no
expiration. -/
def userDownloadShare : Share :=
  { id := 0, file := 1, owner := 10, shareType := ShareType.user,
    sharedWith := some 20, shareLink := none,
    permission := Permission.download, expiresAt := none, isActive := true }

/-- A state holding `fOwned` and `userDownloadShare`. -/
def dbUserDownload : DB :=
  { files := [fOwned], shares := [userDownloadShare], audits := [],
    nextShareId := 1, disk := ["p"] }

/-- A link-kind download share on `fOwned` carrying token "tok". -/
def linkDownloadShare : Share :=
  { id := 0, file := 1, owner := 10, shareType := ShareType.link,
    sharedWith := none, shareLink := some "tok",
    permission := Permission.download, expiresAt := none, isActive := true }

/-- A state holding `fOwned` and `linkDownloadShare`. -/
def dbLinkDownload : DB :=
  { files := [fOwned], shares := [linkDownloadShare], audits := [],
    nextShareId := 1, disk := ["p"] }

/-! Theorems. -/

/-- Replacing, in a Share list, every record carrying the id of `a` by
`b` preserves the number of records matching `p`, provided ids identify
records in the list and `p b = p a`. -/
theorem length_filter_replaceShareById (l : List Share) (p : Share → Bool)
    (a b : Share) (hid : ∀ s ∈ l, s.id = a.id → s = a) (hpb : p b = p a) :
    ((replaceShareById l a.id b).filter p).length = (l.filter p).length := by
  unfold replaceShareById
  induction l with
  | nil => rfl
  | cons x xs ih =>
    have hxs : ∀ s ∈ xs, s.id = a.id → s = a :=
      fun s hs => hid s (List.mem_cons_of_mem _ hs)
    by_cases hx : x.id = a.id
    · have hxa : x = a := hid x (List.mem_cons_self _ _) hx
      subst hxa
      simp only [List.map_cons, beq_self_eq_true, if_true, List.filter_cons,
        hpb]
      by_cases hpa : p x = true
      · simpa [hpa, hpb] using ih hxs
      · simp at hpa
        simpa [hpa, hpb] using ih hxs
    · have hbeq : (x.id == a.id) = false := by
        simp [hx]
      simp only [List.map_cons, hbeq, if_false, List.filter_cons]
      by_cases hpx : p x = true
      · simpa [hpx] using ih hxs
      · simp at hpx
        simpa [hpx] using ih hxs

/-- C1: for a principal equal to the owner of the file, view resolution
(`getFileById`) returns the file and download resolution (`downloadFile`)
is never denied for lack of a share, and the results of both are unchanged
under an arbitrary replacement of the whole Share collection — ownership
grants full rights and the Share lookup is bypassed entirely. -/
theorem c1_owner_bypasses_share_lookup (now userId fileId : Nat) (db : DB)
    (shares2 : List Share) (f : File)
    (hf : db.files.find? (fun g => g.id == fileId) = some f)
    (hown : f.owner = userId) :
    (getFileById now userId fileId db).1 = GetFileResult.ok f ∧
    (getFileById now userId fileId { db with shares := shares2 }).1
      = GetFileResult.ok f ∧
    (downloadFile now userId fileId db).1 ≠ DownloadFileResult.accessDenied ∧
    (downloadFile now userId fileId { db with shares := shares2 }).1
      = (downloadFile now userId fileId db).1 := by
  have hf2 : ({ db with shares := shares2 } : DB).files.find?
      (fun g => g.id == fileId) = some f := hf
  have hbeq : (f.owner == userId) = true := beq_iff_eq.mpr hown
  refine ⟨?_, ?_, ?_, ?_⟩
  · simp [getFileById, hf, hbeq]
  · simp [getFileById, hf2, hbeq]
  · simp only [downloadFile, hf, hbeq, Bool.true_or]
    by_cases hd : f.path ∈ db.disk <;> simp [hd]
  · simp only [downloadFile, hf, hf2, hbeq, Bool.true_or]
    by_cases hd : f.path ∈ db.disk <;> simp [hd]

/-- C1 witness: the owner of `fOwned` resolves view and download on a
concrete state. -/
theorem c1_owner_bypasses_share_lookup_witness :
    (getFileById 0 10 1 dbNoShares).1 = GetFileResult.ok fOwned ∧
    (getFileById 0 10 1 { dbNoShares with shares := [] }).1
      = GetFileResult.ok fOwned ∧
    (downloadFile 0 10 1 dbNoShares).1 ≠ DownloadFileResult.accessDenied ∧
    (downloadFile 0 10 1 { dbNoShares with shares := [] }).1
      = (downloadFile 0 10 1 dbNoShares).1 :=
  c1_owner_bypasses_share_lookup 0 10 1 dbNoShares [] fOwned (by decide)
    (by decide)

/-- C2 counterexample: at the boundary instant now = expiresAt = 5 the
isExpired helper and the model virtuals treat the share as not expired
(still valid), yet the valid-share store query excludes it — one instant
earlier the same query returns it.  The boundary is not applied uniformly
by the queries. -/
theorem c2_boundary_counterexample :
    isExpired 5 (some 5) = false ∧
    shareIsExpired 5 boundaryShare = false ∧
    shareIsValid 5 boundaryShare = true ∧
    findValidShareForUser dbBoundary 5 1 20 = none ∧
    findValidShareForUser dbBoundary 4 1 20 = some boundaryShare := by
  decide

/-- C2 amended: for a share with an expiration instant, the isExpired
helper and the model isExpired/isValid virtuals use strict
now > expiresAt, so the boundary instant now = expiresAt is still valid
there; the valid-share store queries instead keep a share iff
expiresAt > now, so the boundary instant is excluded (treated as expired)
by the queries; away from the boundary the two conditions agree. -/
theorem c2_expiry_boundary (now t : Nat) (s : Share)
    (hs : s.expiresAt = some t) (ha : s.isActive = true) :
    (isExpired now s.expiresAt = true ↔ t < now) ∧
    (shareIsExpired now s = true ↔ t < now) ∧
    (shareIsValid now s = true ↔ now ≤ t) ∧
    (unexpiredInQuery now s.expiresAt = true ↔ now < t) ∧
    (now ≠ t → unexpiredInQuery now s.expiresAt = !(shareIsExpired now s)) := by
  refine ⟨?_, ?_, ?_, ?_, ?_⟩
  · simp [isExpired, hs]
  · simp [shareIsExpired, hs]
  · simp [shareIsValid, hs, ha]
  · simp [unexpiredInQuery, hs]
  · intro hne
    simp only [unexpiredInQuery, shareIsExpired, hs]
    rcases Nat.lt_trichotomy now t with h | h | h
    · simp [h, Nat.le_of_lt h, Nat.not_lt.mpr (Nat.le_of_lt h)]
    · exact absurd h hne
    · simp [h, Nat.not_lt.mpr (Nat.le_of_lt h), Nat.lt_irrefl]

/-- C2 witness: the amended boundary facts evaluated at now = 7 against
`boundaryShare`, which expires at 5. -/
theorem c2_expiry_boundary_witness :
    (isExpired 7 boundaryShare.expiresAt = true ↔ 5 < 7) ∧
    (shareIsExpired 7 boundaryShare = true ↔ 5 < 7) ∧
    (shareIsValid 7 boundaryShare = true ↔ 7 ≤ 5) ∧
    (unexpiredInQuery 7 boundaryShare.expiresAt = true ↔ 7 < 5) ∧
    (7 ≠ 5 → unexpiredInQuery 7 boundaryShare.expiresAt
      = !(shareIsExpired 7 boundaryShare)) :=
  c2_expiry_boundary 7 5 boundaryShare (by decide) (by decide)

/-- C3: when a user-kind share already exists for (file, targetPrincipal)
and the existing-share id identifies the record, a sequential grantToUser
call updates the record in place — permission replaced when a new value is
supplied, expiration replaced when a supplied value parses to a future
instant, active forced to true, every other field kept — the share list
keeps its length, and the number of user-kind shares for the pair is
unchanged, so at most one such share exists afterwards whenever at most
one existed before. -/
theorem c3_regrant_updates_in_place (now userId fileId targetId : Nat)
    (perm : Option Permission) (exp : Option Nat) (db : DB) (f : File)
    (ex : Share)
    (hf : db.files.find? (fun g => g.id == fileId) = some f)
    (hown : f.owner = userId)
    (hne : targetId ≠ userId)
    (hex : db.shares.find? (userSharePred fileId targetId) = some ex)
    (hid : ∀ s ∈ db.shares, s.id = ex.id → s = ex) :
    ∃ upd : Share,
      shareWithUser now userId fileId targetId perm exp db
        = (ShareWithUserResult.updated upd,
           { db with shares := replaceShareById db.shares ex.id upd }) ∧
      upd.permission = perm.getD ex.permission ∧
      upd.expiresAt = (match parseExpiration now exp with
        | some d => some d
        | none => ex.expiresAt) ∧
      upd.isActive = true ∧
      upd.id = ex.id ∧ upd.file = ex.file ∧ upd.owner = ex.owner ∧
      upd.shareType = ex.shareType ∧ upd.sharedWith = ex.sharedWith ∧
      upd.shareLink = ex.shareLink ∧
      (shareWithUser now userId fileId targetId perm exp db).2.shares.length
        = db.shares.length ∧
      ((shareWithUser now userId fileId targetId perm exp db).2.shares.filter
          (userSharePred fileId targetId)).length
        = (db.shares.filter (userSharePred fileId targetId)).length := by
  have hbeq : (f.owner != userId) = false := by simp [hown]
  have hbne : (targetId == userId) = false := by simp [hne]
  have hw : shareWithUser now userId fileId targetId perm exp db
      = shareWithUserWrite now userId fileId targetId perm exp (some ex) db := by
    simp [shareWithUser, hf, hbeq, hbne, shareWithUserRead, hex]
  refine ⟨{ ex with
      permission := perm.getD ex.permission,
      expiresAt := match parseExpiration now exp with
        | some d => some d
        | none => ex.expiresAt,
      isActive := true }, ?_, rfl, rfl, rfl, rfl, rfl, rfl, rfl, rfl, rfl,
    ?_, ?_⟩
  · rw [hw]
    rfl
  · rw [hw]
    simp [shareWithUserWrite, replaceShareById]
  · rw [hw]
    exact length_filter_replaceShareById db.shares
      (userSharePred fileId targetId) ex _ hid rfl

/-- C3 witness: a concrete re-grant on `dbUserView`, raising permission to
download and supplying no expiration. -/
theorem c3_regrant_updates_in_place_witness :
    ∃ upd : Share,
      shareWithUser 0 10 1 20 (some Permission.download) none dbUserView
        = (ShareWithUserResult.updated upd,
           { dbUserView with
             shares := replaceShareById dbUserView.shares userViewShare.id
               upd }) ∧
      upd.permission
        = (some Permission.download).getD userViewShare.permission ∧
      upd.expiresAt = (match parseExpiration 0 none with
        | some d => some d
        | none => userViewShare.expiresAt) ∧
      upd.isActive = true ∧
      upd.id = userViewShare.id ∧ upd.file = userViewShare.file ∧
      upd.owner = userViewShare.owner ∧
      upd.shareType = userViewShare.shareType ∧
      upd.sharedWith = userViewShare.sharedWith ∧
      upd.shareLink = userViewShare.shareLink ∧
      (shareWithUser 0 10 1 20 (some Permission.download) none
          dbUserView).2.shares.length = dbUserView.shares.length ∧
      ((shareWithUser 0 10 1 20 (some Permission.download) none
          dbUserView).2.shares.filter (userSharePred 1 20)).length
        = (dbUserView.shares.filter (userSharePred 1 20)).length :=
  c3_regrant_updates_in_place 0 10 1 20 (some Permission.download) none
    dbUserView fOwned userViewShare (by decide) (by decide) (by decide)
    (by decide) (by decide)

/-- C4 counterexample: the owner requests a link share while the issued
token collides with the token of an existing share; no replacement token
is generated — the collision is surfaced to the caller as the generic
server error and the state is unchanged. -/
theorem c4_collision_surfaced_counterexample :
    shareViaLink 0 10 1 none none "tok" dbLinkView
      = (ShareViaLinkResult.serverError, dbLinkView) := by decide

/-- C4 amended: shareViaLink always attempts to create one new share with
the single issued token; when the token is fresh a new share is appended
(link shares are never deduplicated) together with a file_share_link audit
entry; when the issued token collides with any existing shareLink, the
creation fails on the unique index of the store and the failure is surfaced to
the caller as the generic server error, with no internal retry and no
state change. -/
theorem c4_link_creation_no_retry (now userId fileId : Nat)
    (perm : Option Permission) (exp : Option Nat) (tok : String) (db : DB)
    (f : File)
    (hf : db.files.find? (fun g => g.id == fileId) = some f)
    (hown : f.owner = userId) :
    (db.shares.any (fun s => s.shareLink == some tok) = true →
      shareViaLink now userId fileId perm exp tok db
        = (ShareViaLinkResult.serverError, db)) ∧
    (db.shares.any (fun s => s.shareLink == some tok) = false →
      ∃ s : Share,
        shareViaLink now userId fileId perm exp tok db
          = (ShareViaLinkResult.created s,
             { db with
               shares := db.shares ++ [s],
               nextShareId := db.nextShareId + 1,
               audits := db.audits
                 ++ [⟨userId, AuditAction.file_share_link, some fileId,
                      some s.id⟩] }) ∧
        s.shareLink = some tok ∧ s.shareType = ShareType.link) := by
  have hbeq : (f.owner != userId) = false := by simp [hown]
  constructor
  · intro hcol
    simp [shareViaLink, hf, hbeq, hcol]
  · intro hfresh
    refine ⟨{ id := db.nextShareId, file := fileId, owner := userId,
              shareType := ShareType.link, sharedWith := none,
              shareLink := some tok,
              permission := perm.getD Permission.view,
              expiresAt := parseExpiration now exp, isActive := true },
      ?_, rfl, rfl⟩
    simp [shareViaLink, hf, hbeq, hfresh, logAudit]

/-- C4 witness: a fresh token "t2" against `dbLinkView`, discharging the
no-collision branch of the amended statement. -/
theorem c4_link_creation_no_retry_witness :
    ∃ s : Share,
      shareViaLink 0 10 1 none none "t2" dbLinkView
        = (ShareViaLinkResult.created s,
           { dbLinkView with
             shares := dbLinkView.shares ++ [s],
             nextShareId := dbLinkView.nextShareId + 1,
             audits := dbLinkView.audits
               ++ [⟨10, AuditAction.file_share_link, some 1, some s.id⟩] }) ∧
      s.shareLink = some "t2" ∧ s.shareType = ShareType.link :=
  (c4_link_creation_no_retry 0 10 1 none none "t2" dbLinkView fOwned
    (by decide) (by decide)).2 (by decide)

/-- C5 counterexample: a successful re-grant through the update-in-place
path of shareWithUser leaves the audit collection empty — no share-to-user
audit entry is emitted on that success path — while the same call against
the state without the existing share appends one entry through the
fresh-creation path. -/
theorem c5_upsert_emits_no_audit_counterexample :
    (shareWithUser 0 10 1 20 (some Permission.download) none dbUserView).1
      = ShareWithUserResult.updated
          { userViewShare with permission := Permission.download } ∧
    (shareWithUser 0 10 1 20 (some Permission.download) none
        dbUserView).2.audits = [] ∧
    (shareWithUser 0 10 1 20 (some Permission.download) none
        { dbUserView with shares := [] }).2.audits
      = [⟨10, AuditAction.file_share_user, some 1, some 1⟩] := by decide

/-- C5 amended: shareWithUser emits a file_share_user audit entry exactly
on the fresh-creation success path; every failure path and the
update-in-place re-grant success path leave the audit collection
unchanged. -/
theorem c5_audit_only_on_create (now userId fileId targetId : Nat)
    (perm : Option Permission) (exp : Option Nat) (db : DB) :
    (∀ s : Share,
      (shareWithUser now userId fileId targetId perm exp db).1
          = ShareWithUserResult.created s →
      (shareWithUser now userId fileId targetId perm exp db).2.audits
        = db.audits
          ++ [⟨userId, AuditAction.file_share_user, some fileId,
               some s.id⟩]) ∧
    (∀ s : Share,
      (shareWithUser now userId fileId targetId perm exp db).1
          = ShareWithUserResult.updated s →
      (shareWithUser now userId fileId targetId perm exp db).2.audits
        = db.audits) ∧
    ((shareWithUser now userId fileId targetId perm exp db).1
          = ShareWithUserResult.fileNotFound
        ∨ (shareWithUser now userId fileId targetId perm exp db).1
          = ShareWithUserResult.notOwner
        ∨ (shareWithUser now userId fileId targetId perm exp db).1
          = ShareWithUserResult.selfShare →
      (shareWithUser now userId fileId targetId perm exp db).2.audits
        = db.audits) := by
  cases hf : db.files.find? (fun f => f.id == fileId) with
  | none =>
    simp [shareWithUser, hf]
  | some f =>
    by_cases hown : (f.owner != userId) = true
    · simp [shareWithUser, hf, hown]
    · simp only [Bool.not_eq_true] at hown
      by_cases hself : (targetId == userId) = true
      · simp [shareWithUser, hf, hown, hself]
      · simp only [Bool.not_eq_true] at hself
        cases hex : shareWithUserRead fileId targetId db with
        | some ex =>
          simp [shareWithUser, hf, hown, hself, hex, shareWithUserWrite]
        | none =>
          simp [shareWithUser, hf, hown, hself, hex, shareWithUserWrite,
            logAudit]

/-- C5 witness: the fresh-creation branch of the amended statement at a
concrete grant against `dbNoShares`. -/
theorem c5_audit_only_on_create_witness :
    (shareWithUser 0 10 1 20 none none dbNoShares).2.audits
      = dbNoShares.audits
        ++ [⟨10, AuditAction.file_share_user, some 1, some 0⟩] :=
  (c5_audit_only_on_create 0 10 1 20 none none dbNoShares).1
    { id := 0, file := 1, owner := 10, shareType := ShareType.user,
      sharedWith := some 20, shareLink := none,
      permission := Permission.view, expiresAt := none, isActive := true }
    (by decide)

/-- C6: a non-owner principal holding only view-permission shares is
denied download — `downloadFile` against only-view user shares and
`downloadViaLink` against only-view link shares answer with the
denial, never a view result — while a download-permission share passes
both the download resolution and the view resolution (`getFileById`,
`accessViaLink`). -/
theorem c6_view_insufficient_for_download :
    (∀ (now userId fileId : Nat) (db : DB) (f : File),
      db.files.find? (fun g => g.id == fileId) = some f →
      f.owner ≠ userId →
      (∀ s ∈ db.shares, userSharePred fileId userId s = true →
        s.permission = Permission.view) →
      (downloadFile now userId fileId db).1
        = DownloadFileResult.accessDenied) ∧
    (∀ (now userId : Nat) (tok : String) (db : DB),
      (∀ s ∈ db.shares, s.shareLink = some tok →
        s.shareType = ShareType.link → s.permission = Permission.view) →
      (downloadViaLink now userId tok db).1
        = DownloadViaLinkResult.forbidden) ∧
    (∀ (now userId fileId : Nat) (db : DB) (f : File) (s : Share),
      db.files.find? (fun g => g.id == fileId) = some f →
      s ∈ db.shares →
      downloadUserSharePred now fileId userId s = true →
      (downloadFile now userId fileId db).1
          ≠ DownloadFileResult.accessDenied ∧
      (getFileById now userId fileId db).1 = GetFileResult.ok f) ∧
    (∀ (now userId : Nat) (tok : String) (db : DB) (s : Share),
      db.shares.find? (downloadLinkPred tok) = some s →
      db.shares.find? (activeLinkPred tok) = some s →
      isExpired now s.expiresAt = false →
      (downloadViaLink now userId tok db).1
          = DownloadViaLinkResult.download s ∧
      (accessViaLink now userId tok db).1
          = AccessViaLinkResult.granted s) := by
  refine ⟨?_, ?_, ?_, ?_⟩
  · intro now userId fileId db f hf hown hview
    have hnone : db.shares.find? (downloadUserSharePred now fileId userId)
        = none := by
      rw [List.find?_eq_none]
      intro s hs hp
      simp only [downloadUserSharePred, Bool.and_eq_true, beq_iff_eq] at hp
      have := hview s hs hp.1.1.1
      rw [this] at hp
      exact Permission.noConfusion hp.1.1.2
    have hob : (f.owner == userId) = false := by simp [hown]
    simp [downloadFile, hf, hob, hnone]
  · intro now userId tok db hview
    have hnone : db.shares.find? (downloadLinkPred tok) = none := by
      rw [List.find?_eq_none]
      intro s hs hp
      simp only [downloadLinkPred, activeLinkPred, Bool.and_eq_true,
        beq_iff_eq] at hp
      have := hview s hs hp.1.1.1 hp.1.1.2
      rw [this] at hp
      exact Permission.noConfusion hp.2
    simp [downloadViaLink, hnone]
  · intro now userId fileId db f s hf hmem hp
    have hsome : (db.shares.find?
        (downloadUserSharePred now fileId userId)).isSome :=
      List.find?_isSome.mpr ⟨s, hmem, hp⟩
    obtain ⟨s2, hs2⟩ := Option.isSome_iff_exists.mp hsome
    have hvalid : validUserSharePred now fileId userId s = true := by
      simp only [downloadUserSharePred, Bool.and_eq_true] at hp
      simp only [validUserSharePred, Bool.and_eq_true]
      exact ⟨⟨hp.1.1.1, hp.1.2⟩, hp.2⟩
    have hvsome : (db.shares.find?
        (validUserSharePred now fileId userId)).isSome :=
      List.find?_isSome.mpr ⟨s, hmem, hvalid⟩
    obtain ⟨s3, hs3⟩ := Option.isSome_iff_exists.mp hvsome
    constructor
    · simp only [downloadFile, hf, hs2, Option.isSome_some, Bool.or_true]
      by_cases hd : f.path ∈ db.disk <;> simp [hd]
    · by_cases hob : (f.owner == userId) = true
      · simp [getFileById, hf, hob]
      · simp only [Bool.not_eq_true] at hob
        simp [getFileById, hf, hob, hs3]
  · intro now userId tok db s h1 h2 h3
    exact ⟨by simp [downloadViaLink, h1, h3], by simp [accessViaLink, h2, h3]⟩

/-- C6 witness: the four parts at concrete states — a view user share
denies download, a view link share denies link download, a download user
share passes download and view resolution, a download link share passes
link download and link access. -/
theorem c6_view_insufficient_for_download_witness :
    (downloadFile 0 20 1 dbUserView).1 = DownloadFileResult.accessDenied ∧
    (downloadViaLink 0 20 "tok" dbLinkView).1
      = DownloadViaLinkResult.forbidden ∧
    ((downloadFile 0 20 1 dbUserDownload).1
        ≠ DownloadFileResult.accessDenied ∧
      (getFileById 0 20 1 dbUserDownload).1 = GetFileResult.ok fOwned) ∧
    ((downloadViaLink 0 20 "tok" dbLinkDownload).1
        = DownloadViaLinkResult.download linkDownloadShare ∧
      (accessViaLink 0 20 "tok" dbLinkDownload).1
        = AccessViaLinkResult.granted linkDownloadShare) :=
  ⟨c6_view_insufficient_for_download.1 0 20 1 dbUserView fOwned (by decide)
      (by decide) (by decide),
    c6_view_insufficient_for_download.2.1 0 20 "tok" dbLinkView (by decide),
    c6_view_insufficient_for_download.2.2.1 0 20 1 dbUserDownload fOwned
      userDownloadShare (by decide) (by decide) (by decide),
    c6_view_insufficient_for_download.2.2.2 0 20 "tok" dbLinkDownload
      linkDownloadShare (by decide) (by decide) (by decide)⟩

/-- C7: a transform output is kept as the file of record only when it is
strictly smaller than the original (image transform), or smaller than 90%
of the original (archive transform); in every other case — including a
thrown transform and a non-image pass-through — the original is kept and
the result reports success false, compressedSize equal to originalSize and
ratio 1. -/
theorem c7_compression_keep_rule (originalSize : Nat) (mimeType : String)
    (t : Option Nat) :
    ((compressImage originalSize mimeType t).2 = KeptFile.transformed →
      (compressImage originalSize mimeType t).1.success = true ∧
      (compressImage originalSize mimeType t).1.compressedSize
        < originalSize) ∧
    ((compressImage originalSize mimeType t).2 = KeptFile.original →
      (compressImage originalSize mimeType t).1 = failResult originalSize) ∧
    (t = none → (compressImage originalSize mimeType t).2
      = KeptFile.original) ∧
    (∀ cs, t = some cs → ¬ cs < originalSize →
      (compressImage originalSize mimeType t).2 = KeptFile.original) ∧
    ((createZipArchive originalSize t).2 = KeptFile.transformed →
      (createZipArchive originalSize t).1.success = true ∧
      (createZipArchive originalSize t).1.compressedSize * 10
        < originalSize * 9) ∧
    ((createZipArchive originalSize t).2 = KeptFile.original →
      (createZipArchive originalSize t).1 = failResult originalSize) ∧
    (t = none → (createZipArchive originalSize t).2 = KeptFile.original) ∧
    (∀ cs, t = some cs → ¬ cs * 10 < originalSize * 9 →
      (createZipArchive originalSize t).2 = KeptFile.original) ∧
    (mimeType.startsWith "image/" = false →
      compressFile originalSize mimeType t
        = (failResult originalSize, KeptFile.original)) ∧
    (failResult originalSize).success = false ∧
    (failResult originalSize).compressedSize = originalSize ∧
    (failResult originalSize).sizeQuotient = 1 := by
  obtain (_ | cs) := t
  all_goals
    refine ⟨?_, ?_, ?_, ?_, ?_, ?_, ?_, ?_, ?_, rfl, rfl, rfl⟩ <;>
      simp only [compressImage, createZipArchive, compressFile] <;>
      first
        | (split_ifs <;> simp_all)
        | simp_all

/-- C7 witness: a 200000-byte JPEG transformed to 150000 bytes is kept;
the same original with a 200000-byte transform output is discarded with
the failure report; a 200000-byte archive output of 150000 bytes is under
the 90% bar and kept. -/
theorem c7_compression_keep_rule_witness :
    ((compressImage 200000 "image/jpeg" (some 150000)).1.success = true ∧
      (compressImage 200000 "image/jpeg" (some 150000)).1.compressedSize
        < 200000) ∧
    (compressImage 200000 "image/jpeg" (some 200000)).1
      = failResult 200000 ∧
    ((createZipArchive 200000 (some 150000)).1.success = true ∧
      (createZipArchive 200000 (some 150000)).1.compressedSize * 10
        < 200000 * 9) :=
  ⟨(c7_compression_keep_rule 200000 "image/jpeg" (some 150000)).1
      (by decide),
    (c7_compression_keep_rule 200000 "image/jpeg" (some 200000)).2.1
      (by decide),
    (c7_compression_keep_rule 200000 "x" (some 150000)).2.2.2.2.1
      (by decide)⟩

/-- C8: updateExpiration called by the owner of the share replaces exactly the
expiration field — the active flag and every other Share field are kept,
and the File and audit collections are untouched — and a null/absent
supplied value leaves the share with no expiration, which the expiry
helper never reports as expired. -/
theorem c8_update_expiration_frame (now userId shareId : Nat)
    (exp : Option Nat) (db : DB) (sh : Share)
    (hfind : db.shares.find? (fun s => s.id == shareId) = some sh)
    (hown : sh.owner = userId) :
    ∃ upd : Share,
      updateShareExpiration now userId shareId exp db
        = (UpdateExpirationResult.ok upd,
           { db with shares := replaceShareById db.shares sh.id upd }) ∧
      upd.expiresAt = parseExpiration now exp ∧
      upd.isActive = sh.isActive ∧ upd.permission = sh.permission ∧
      upd.id = sh.id ∧ upd.file = sh.file ∧ upd.owner = sh.owner ∧
      upd.shareType = sh.shareType ∧ upd.sharedWith = sh.sharedWith ∧
      upd.shareLink = sh.shareLink ∧
      (updateShareExpiration now userId shareId exp db).2.files
        = db.files ∧
      (updateShareExpiration now userId shareId exp db).2.audits
        = db.audits ∧
      (exp = none → upd.expiresAt = none ∧
        ∀ t2, isExpired t2 upd.expiresAt = false) := by
  have hbeq : (sh.owner != userId) = false := by simp [hown]
  refine ⟨{ sh with expiresAt := parseExpiration now exp },
    ?_, rfl, rfl, rfl, rfl, rfl, rfl, rfl, rfl, rfl, ?_, ?_, ?_⟩
  · simp [updateShareExpiration, hfind, hbeq]
  · simp [updateShareExpiration, hfind, hbeq]
  · simp [updateShareExpiration, hfind, hbeq]
  · intro h
    subst h
    exact ⟨rfl, fun t2 => rfl⟩

/-- C8 witness: the owner clears the expiration of `boundaryShare` with an
absent value on `dbBoundary`. -/
theorem c8_update_expiration_frame_witness :
    ∃ upd : Share,
      updateShareExpiration 0 10 0 none dbBoundary
        = (UpdateExpirationResult.ok upd,
           { dbBoundary with
             shares := replaceShareById dbBoundary.shares boundaryShare.id
               upd }) ∧
      upd.expiresAt = parseExpiration 0 none ∧
      upd.isActive = boundaryShare.isActive ∧
      upd.permission = boundaryShare.permission ∧
      upd.id = boundaryShare.id ∧ upd.file = boundaryShare.file ∧
      upd.owner = boundaryShare.owner ∧
      upd.shareType = boundaryShare.shareType ∧
      upd.sharedWith = boundaryShare.sharedWith ∧
      upd.shareLink = boundaryShare.shareLink ∧
      (updateShareExpiration 0 10 0 none dbBoundary).2.files
        = dbBoundary.files ∧
      (updateShareExpiration 0 10 0 none dbBoundary).2.audits
        = dbBoundary.audits ∧
      (none = (none : Option Nat) → upd.expiresAt = none ∧
        ∀ t2, isExpired t2 upd.expiresAt = false) :=
  c8_update_expiration_frame 0 10 0 none dbBoundary boundaryShare
    (by decide) (by decide)

/-- C9: the upsert path of grantToUser is a naive read-then-write —
`shareWithUser` is literally `shareWithUserWrite` applied to the snapshot
taken by `shareWithUserRead`, and the schema declares no unique index on
(file, sharedWith, shareType).  Interleaving two executions so that both
reads precede both writes, starting from a state with no share for the
pair, leaves two user-kind Share records for (file 1, principal 20),
while the same two grants run sequentially leave exactly one. -/
theorem c9_race_two_records :
    (((shareWithUserWrite 0 10 1 20 (some Permission.download) none
          (shareWithUserRead 1 20 dbNoShares)
          ((shareWithUserWrite 0 10 1 20 (some Permission.view) none
            (shareWithUserRead 1 20 dbNoShares)
            dbNoShares).2)).2).shares.filter (userSharePred 1 20)).length
      = 2 ∧
    (((shareWithUser 0 10 1 20 (some Permission.download) none
          ((shareWithUser 0 10 1 20 (some Permission.view) none
            dbNoShares).2)).2).shares.filter (userSharePred 1 20)).length
      = 1 := by decide

/-- C10: an expiration request that is absent, unparseable, or parses to
an instant at or before now is turned into null by parseExpiration;
consequently a grantToUser re-grant keeps the existing
expiration, a fresh grantToUser creates the share with no expiration, and
updateExpiration leaves the share with no expiration — never an
already-expired share. -/
theorem c10_past_expiration_ignored (now : Nat) (req : Option Nat)
    (hreq : req = none ∨ ∃ d, req = some d ∧ d ≤ now) :
    parseExpiration now req = none ∧
    (∀ (userId fileId targetId : Nat) (perm : Option Permission) (db : DB)
        (ex upd : Share) (db2 : DB),
      db.shares.find? (userSharePred fileId targetId) = some ex →
      shareWithUser now userId fileId targetId perm req db
        = (ShareWithUserResult.updated upd, db2) →
      upd.expiresAt = ex.expiresAt) ∧
    (∀ (userId fileId targetId : Nat) (perm : Option Permission) (db : DB)
        (s : Share) (db2 : DB),
      shareWithUser now userId fileId targetId perm req db
        = (ShareWithUserResult.created s, db2) →
      s.expiresAt = none) ∧
    (∀ (userId shareId : Nat) (db : DB) (upd : Share) (db2 : DB),
      updateShareExpiration now userId shareId req db
        = (UpdateExpirationResult.ok upd, db2) →
      upd.expiresAt = none) := by
  have hparse : parseExpiration now req = none := by
    rcases hreq with h | ⟨d, hd, hle⟩
    · subst h
      rfl
    · subst hd
      simp [parseExpiration, hle]
  refine ⟨hparse, ?_, ?_, ?_⟩
  · intro userId fileId targetId perm db ex upd db2 hex heq
    cases hf : db.files.find? (fun f => f.id == fileId) with
    | none => simp [shareWithUser, hf] at heq
    | some f =>
      by_cases hown : (f.owner != userId) = true
      · simp [shareWithUser, hf, hown] at heq
      · simp only [Bool.not_eq_true] at hown
        by_cases hself : (targetId == userId) = true
        · simp [shareWithUser, hf, hown, hself] at heq
        · simp only [Bool.not_eq_true] at hself
          simp [shareWithUser, hf, hown, hself, shareWithUserRead, hex,
            shareWithUserWrite, hparse] at heq
          rw [← heq.1]
  · intro userId fileId targetId perm db s db2 heq
    cases hf : db.files.find? (fun f => f.id == fileId) with
    | none => simp [shareWithUser, hf] at heq
    | some f =>
      by_cases hown : (f.owner != userId) = true
      · simp [shareWithUser, hf, hown] at heq
      · simp only [Bool.not_eq_true] at hown
        by_cases hself : (targetId == userId) = true
        · simp [shareWithUser, hf, hown, hself] at heq
        · simp only [Bool.not_eq_true] at hself
          cases hex : shareWithUserRead fileId targetId db with
          | some ex =>
            simp [shareWithUser, hf, hown, hself, hex,
              shareWithUserWrite] at heq
          | none =>
            simp [shareWithUser, hf, hown, hself, hex, shareWithUserWrite,
              hparse] at heq
            rw [← heq.1]
  · intro userId shareId db upd db2 heq
    cases hfind : db.shares.find? (fun s => s.id == shareId) with
    | none => simp [updateShareExpiration, hfind] at heq
    | some sh =>
      by_cases hown : (sh.owner != userId) = true
      · simp [updateShareExpiration, hfind, hown] at heq
      · simp only [Bool.not_eq_true] at hown
        simp [updateShareExpiration, hfind, hown, hparse] at heq
        rw [← heq.1]

/-- C10 witness: a supplied expiration instant 5 lying before now = 10 is
turned into null. -/
theorem c10_past_expiration_ignored_witness :
    parseExpiration 10 (some 5) = none :=
  (c10_past_expiration_ignored 10 (some 5)
    (Or.inr ⟨5, rfl, by decide⟩)).1

end NuaBackend
